import Mathlib

/-!
# Verification of the ZIP-code CSV reader and extremes aggregator

Shallow embedding of the C++ sources `ZipCodeBuffer.cpp` / `main.cpp`
(ZipCodeBuffer class: CSV line splitting, trimming, numeric coercion,
single-record and bulk reads, reset; main program: per-state extremes
aggregation with tie-breaking, exit codes).

Strings are modelled as Lean `String` (a wrapper around `List Char`),
`int` as unbounded `Int` with the `stoi` range check made explicit,
and `double` as `ℚ` (exact comparisons; the `DBL_MAX` / `lowest`
sentinels are the exact rational values of those doubles).  The file
stream is modelled as the list of the file's lines together with a
cursor position.
-/

set_option maxRecDepth 100000

namespace ZipCsv

/-- The whitespace set used by `ZipCodeBuffer::trim`:
`str.find_first_not_of(" \t\r\n")`. -/
def isTrimWS (c : Char) : Bool :=
  c = ' ' || c = '\t' || c = '\r' || c = '\n'

/-- `ZipCodeBuffer::trim`: remove leading and trailing characters from the
set space/tab/CR/LF; a string of only whitespace becomes empty. -/
def trim (s : String) : String :=
  String.mk (((s.data.dropWhile isTrimWS).reverse.dropWhile isTrimWS).reverse)

/-- Character loop of `ZipCodeBuffer::splitCSV`: walk the remaining
characters with the `inQuotes` flag and the current field accumulator.
A quote toggles the flag (and is itself dropped); a comma outside quotes
ends the current field; any other character is appended to the current
field.  At end of input the accumulated field is emitted. -/
def splitCSVAux : List Char → Bool → List Char → List (List Char)
  | [], _, cur => [cur]
  | c :: cs, inQuotes, cur =>
    if c = '"' then
      splitCSVAux cs (!inQuotes) cur
    else if c = ',' && !inQuotes then
      cur :: splitCSVAux cs inQuotes []
    else
      splitCSVAux cs inQuotes (cur ++ [c])

/-- `ZipCodeBuffer::splitCSV`: split a CSV line on commas that are not
inside quotes, stripping the quote characters. -/
def splitCSV (line : String) : List String :=
  (splitCSVAux line.data false []).map String.mk

/-- The whitespace set of C `isspace` (C locale), which `stoi`/`stod`
skip before the number. -/
def isSpaceC (c : Char) : Bool :=
  c = ' ' || c = '\t' || c = '\n' || c = '\x0b' || c = '\x0c' || c = '\r'

/-- Digit characters `0`-`9`. -/
def isDigitC (c : Char) : Bool :=
  '0' ≤ c && c ≤ '9'

/-- Value of a digit list read left to right, most significant first. -/
def digitsVal (ds : List Char) : Nat :=
  ds.foldl (fun acc c => 10 * acc + (c.toNat - '0'.toNat)) 0

/-- Split an optional sign off the front of a character list; `true`
means negative. -/
def takeSign : List Char → Bool × List Char
  | '-' :: rest => (true, rest)
  | '+' :: rest => (false, rest)
  | cs => (false, cs)

/-- Model of `std::stoi` as used by `parseLine`: skip leading
whitespace, optional sign, then a maximal non-empty run of digits
(later characters are ignored).  No digits, or a value outside the
32-bit `int` range, raises an exception in C++, modelled as `none`. -/
def myStoi (s : String) : Option Int :=
  let cs := s.data.dropWhile isSpaceC
  let p := takeSign cs
  let ds := p.2.takeWhile isDigitC
  if ds = [] then none
  else
    let v : Int := (if p.1 then -1 else 1) * (digitsVal ds : Int)
    if v < -2147483648 || 2147483647 < v then none else some v

/-- The exact rational value of `std::numeric_limits<double>::max()`,
`(2 - 2⁻⁵²)·2¹⁰²³ = 2¹⁰²⁴ - 2⁹⁷¹`. -/
def dblMax : ℚ := mkRat ((2 ^ 1024 - 2 ^ 971 : Nat) : Int) 1

/-- Model of `std::stod` as used by `parseLine`: skip leading
whitespace, optional sign, then decimal digits with an optional
fractional part (at least one digit overall) and an optional exponent
part, which is only consumed when digits follow the `e`/`E`.  No
leading digits at all, or a magnitude beyond `DBL_MAX`, is an
exception in C++, modelled as `none`.  (The `inf`/`nan`/hex-float
spellings accepted by `strtod` are not modelled.) -/
def myStod (s : String) : Option ℚ :=
  let cs := s.data.dropWhile isSpaceC
  let p := takeSign cs
  let intDs := p.2.takeWhile isDigitC
  let rest := p.2.dropWhile isDigitC
  let fp : List Char × List Char :=
    match rest with
    | '.' :: r => (r.takeWhile isDigitC, r.dropWhile isDigitC)
    | r => ([], r)
  if intDs = [] && fp.1 = [] then none
  else
    let expVal : Int :=
      match fp.2 with
      | 'e' :: r =>
        let q := takeSign r
        let eds := q.2.takeWhile isDigitC
        if eds = [] then 0 else (if q.1 then -1 else 1) * (digitsVal eds : Int)
      | 'E' :: r =>
        let q := takeSign r
        let eds := q.2.takeWhile isDigitC
        if eds = [] then 0 else (if q.1 then -1 else 1) * (digitsVal eds : Int)
      | _ => 0
    let baseNat : Nat := digitsVal intDs * 10 ^ fp.1.length + digitsVal fp.1
    let num : Int := if p.1 then -(baseNat : Int) else (baseNat : Int)
    let v : ℚ :=
      if 0 ≤ expVal then
        mkRat (num * ((10 ^ expVal.toNat : Nat) : Int)) (10 ^ fp.1.length)
      else
        mkRat num (10 ^ fp.1.length * 10 ^ (-expVal).toNat)
    if v < -dblMax || dblMax < v then none else some v

/-- `ZipCodeRecord`: one parsed row (zip code, place, state, county,
latitude, longitude). -/
structure ZipCodeRecord where
  zipCode : Int
  placeName : String
  state : String
  county : String
  latitude : ℚ
  longitude : ℚ
deriving DecidableEq, Repr, Inhabited

/-- `ZipCodeBuffer::parseLine`: split the line, require exactly 6
fields, coerce field 0 with `stoi` and fields 4 and 5 with `stod`
(each trimmed first); any failure is a parse error (`none`). -/
def parseLine (line : String) : Option ZipCodeRecord :=
  match splitCSV line with
  | [f0, f1, f2, f3, f4, f5] =>
    match myStoi (trim f0), myStod (trim f4), myStod (trim f5) with
    | some z, some la, some lo =>
      some ⟨z, trim f1, trim f2, trim f3, la, lo⟩
    | _, _, _ => none
  | _ => none

example : trim "  a b\t " = "a b" := by decide

example :
    splitCSV "\"10001\",\"New York, NY\",\"NY\",\"New York\",40.7128,-74.0060" =
      ["10001", "New York, NY", "NY", "New York", "40.7128", "-74.0060"] := by
  decide

example : myStoi "10001" = some 10001 := by decide
example : myStoi "abc" = none := by decide
example : myStod "40.7128" = some (mkRat 407128 10000) := by decide
example : myStod "-74.0060" = some (mkRat (-740060) 10000) := by decide
example : myStod "2e3" = some (mkRat 2000 1) := by decide
example :
    parseLine "1,a,A,b,2.5,3.5" =
      some ⟨1, "a", "A", "b", mkRat 5 2, mkRat 7 2⟩ := by decide
example : parseLine "1,a,A,b,2.5" = none := by decide
example : parseLine "x,a,A,b,2.5,3.5" = none := by decide

lemma splitCSVAux_no_quote :
    ∀ (cs : List Char) (inQuotes : Bool) (cur : List Char), '"' ∉ cur →
      ∀ f ∈ splitCSVAux cs inQuotes cur, '"' ∉ f := by
  intro cs
  induction cs with
  | nil =>
    intro inQuotes cur hcur f hf
    simp only [splitCSVAux, List.mem_singleton] at hf
    exact hf ▸ hcur
  | cons c cs ih =>
    intro inQuotes cur hcur f hf
    by_cases hq : c = '"'
    · simp only [splitCSVAux, if_pos hq] at hf
      exact ih _ _ hcur f hf
    · by_cases hcm : (c = ',' && !inQuotes) = true
      · simp only [splitCSVAux, if_neg hq, if_pos hcm] at hf
        rcases List.mem_cons.mp hf with rfl | hf
        · exact hcur
        · exact ih _ _ (by simp) f hf
      · simp only [splitCSVAux, if_neg hq, if_neg hcm] at hf
        refine ih _ _ ?_ f hf
        intro hmem
        rcases List.mem_append.mp hmem with h | h
        · exact hcur h
        · exact hq (List.mem_singleton.mp h).symm

/-- C4: line splitting follows the quote-toggle algorithm of
`ZipCodeBuffer::splitCSV` — the inside-quotes flag is toggled by every
quote character, the line is split on commas only when the flag is off,
and quote characters never appear in field content; the example line
with an embedded comma inside quotes splits into exactly 6 fields with
the embedded comma preserved in the second field. -/
theorem splitCSV_quote_toggle_spec :
    (∀ (line : String), ∀ f ∈ splitCSV line, '"' ∉ f.data) ∧
    splitCSV "\"10001\",\"New York, NY\",\"NY\",\"New York\",40.7128,-74.0060" =
      ["10001", "New York, NY", "NY", "New York", "40.7128", "-74.0060"] ∧
    (splitCSV "\"10001\",\"New York, NY\",\"NY\",\"New York\",40.7128,-74.0060").length = 6 ∧
    (splitCSV "\"10001\",\"New York, NY\",\"NY\",\"New York\",40.7128,-74.0060").getD 1 "" =
      "New York, NY" := by
  refine ⟨?_, by decide, by decide, by decide⟩
  intro line f hf
  rcases List.mem_map.mp hf with ⟨l, hl, rfl⟩
  exact splitCSVAux_no_quote line.data false [] (by simp) l hl

/-- Witness: the general no-quote-in-content part of C4 applied at a
concrete line whose quotes are stripped. -/
theorem splitCSV_quote_toggle_spec_witness :
    '"' ∉ ("ab" : String).data :=
  splitCSV_quote_toggle_spec.1 "a\"b\"" "ab" (by decide)

/-- `parseLine` succeeds exactly when splitting yields 6 fields and the
three numeric coercions succeed. -/
lemma parseLine_isSome_iff (line : String) :
    (parseLine line).isSome ↔
      ((splitCSV line).length = 6 ∧
        (myStoi (trim ((splitCSV line).getD 0 ""))).isSome ∧
        (myStod (trim ((splitCSV line).getD 4 ""))).isSome ∧
        (myStod (trim ((splitCSV line).getD 5 ""))).isSome) := by
  unfold parseLine
  rcases hl : splitCSV line with _ | ⟨f0, _ | ⟨f1, _ | ⟨f2, _ | ⟨f3, _ | ⟨f4, _ | ⟨f5, _ | ⟨f6, rest⟩⟩⟩⟩⟩⟩⟩ <;>
    simp only [List.length_nil, List.length_cons, List.getD_cons_zero, List.getD_cons_succ] <;>
    try simp
  cases hz : myStoi (trim f0) <;> cases hla : myStod (trim f4) <;>
    cases hlo : myStod (trim f5) <;> simp [hz, hla, hlo]

/-- The blank-line test of `ZipCodeBuffer::readRecord`:
`line.empty() || trim(line).empty()`. -/
def isBlankLine (line : String) : Bool :=
  line == "" || trim line == ""

/-- State of a `ZipCodeBuffer`: the stream is modelled as the list of
the file's lines (`content`) plus a cursor (`pos`, index of the next
line `getline` would return); `isOpen` is `fileStream.is_open()`, and
`filename`, `headerSkipped`, `recordCount` are the other data members. -/
structure BufferState where
  isOpen : Bool
  content : List String
  pos : Nat
  filename : String
  headerSkipped : Bool
  recordCount : Int
deriving DecidableEq, Repr

/-- The line-consuming core of `ZipCodeBuffer::readRecord` on the
remaining lines of the stream: skip blank lines (recursing like the
C++ code), then parse the first non-blank line; returns the outcome
(`some` record on success, `none` on parse error or end of input)
together with the number of lines consumed from the stream. -/
def readFrom : List String → Option ZipCodeRecord × Nat
  | [] => (none, 0)
  | line :: rest =>
    if isBlankLine line then
      let p := readFrom rest
      (p.1, p.2 + 1)
    else
      match parseLine line with
      | some r => (some r, 1)
      | none => (none, 1)

/-- `ZipCodeBuffer::readRecord`: returns `none` when no file is open,
on end of file, or on a parse error, and `some record` on success
(in C++, the boolean result plus the out-parameter); the consumed
lines advance the stream and `recordCount` is incremented only on
success. -/
def readRecord (s : BufferState) : Option ZipCodeRecord × BufferState :=
  if s.isOpen = false then (none, s)
  else
    let p := readFrom (s.content.drop s.pos)
    (p.1, { s with pos := s.pos + p.2,
                   recordCount := s.recordCount + (if p.1.isSome then 1 else 0) })

/-- `ZipCodeBuffer::reset`: fails when no file is open; seeks to the
start and re-reads the header line, failing (with the cursor at the
start) when there is none; otherwise leaves the cursor after the
header and zeroes the record counter. -/
def reset (s : BufferState) : Bool × BufferState :=
  if s.isOpen = false then (false, s)
  else
    match s.content with
    | [] => (false, { s with pos := 0 })
    | _ :: _ => (true, { s with pos := 1, recordCount := 0 })

/-- `ZipCodeBuffer::close`: releases the stream and resets
filename/header/count state; the stream contents are gone. -/
def closeBuffer (s : BufferState) : BufferState :=
  { s with isOpen := false, content := [], pos := 0, filename := "",
           headerSkipped := false, recordCount := 0 }

/-- The default-constructed `ZipCodeBuffer`. -/
def initBuffer : BufferState :=
  { isOpen := false, content := [], pos := 0, filename := "",
    headerSkipped := false, recordCount := 0 }

/-- `ZipCodeBuffer::open`: close any current file, store the filename,
then try to open the source (`file = none` models a source that cannot
be opened; `some lines` models its lines).  On open failure the stored
filename is not cleared.  With an open stream, the header line is
read; if that fails (empty file) the buffer is closed again and the
call fails, else the cursor sits after the header. -/
def openBuffer (s : BufferState) (csvFilename : String)
    (file : Option (List String)) : Bool × BufferState :=
  let s1 := { closeBuffer s with filename := csvFilename }
  match file with
  | none => (false, s1)
  | some lines =>
    match lines with
    | [] => (false, closeBuffer { s1 with isOpen := true, content := lines, pos := 0 })
    | _ :: _ =>
      (true, { s1 with isOpen := true, content := lines, pos := 1,
                       headerSkipped := true, recordCount := 0 })

/-- `ZipCodeBuffer::getFilename`. -/
def getFilename (s : BufferState) : String := s.filename

lemma readFrom_consumed_le : ∀ ls : List String, (readFrom ls).2 ≤ ls.length := by
  intro ls
  induction ls with
  | nil => simp [readFrom]
  | cons line rest ih =>
    by_cases hb : isBlankLine line = true
    · simp only [readFrom, if_pos hb, List.length_cons]
      omega
    · simp only [readFrom, if_neg hb, List.length_cons]
      cases parseLine line <;> simp

lemma readFrom_some_consumed {ls : List String} {r : ZipCodeRecord}
    (h : (readFrom ls).1 = some r) : 1 ≤ (readFrom ls).2 ∧ ls ≠ [] := by
  induction ls with
  | nil => simp [readFrom] at h
  | cons line rest ih =>
    constructor
    · by_cases hb : isBlankLine line = true
      · simp only [readFrom, if_pos hb]; omega
      · simp only [readFrom, if_neg hb]
        cases parseLine line <;> simp
    · simp

lemma readRecord_closed {s : BufferState} (h : s.isOpen = false) :
    readRecord s = (none, s) := by
  simp [readRecord, h]

lemma readRecord_open {s : BufferState} (h : s.isOpen = true) :
    readRecord s =
      ((readFrom (s.content.drop s.pos)).1,
        { s with pos := s.pos + (readFrom (s.content.drop s.pos)).2,
                 recordCount := s.recordCount +
                   (if (readFrom (s.content.drop s.pos)).1.isSome then 1 else 0) }) := by
  simp [readRecord, h]

lemma readRecord_state (s : BufferState) :
    (readRecord s).2.content = s.content ∧ (readRecord s).2.isOpen = s.isOpen ∧
      (readRecord s).2.filename = s.filename := by
  unfold readRecord
  split <;> simp

lemma readRecord_measure {s : BufferState} {r : ZipCodeRecord} {s' : BufferState}
    (h : readRecord s = (some r, s')) :
    s'.content.length - s'.pos < s.content.length - s.pos := by
  by_cases ho : s.isOpen = true
  · rw [readRecord_open ho] at h
    obtain ⟨h1, h2⟩ := Prod.mk.injEq .. |>.mp h
    obtain ⟨hk, hne⟩ := readFrom_some_consumed h1
    have hpos : s.pos < s.content.length := by
      by_contra hge
      exact hne (List.drop_eq_nil_of_le (by omega))
    have hc : s'.content = s.content := by rw [← h2]
    have hp : s'.pos = s.pos + (readFrom (s.content.drop s.pos)).2 := by rw [← h2]
    rw [hc, hp]
    omega
  · rw [readRecord_closed (by revert ho; cases s.isOpen <;> simp)] at h
    simp at h

/-- The `while (readRecord(record)) records.push_back(record)` loop of
`ZipCodeBuffer::gatherAllRecords`: repeatedly read single records,
collecting them, until the single-record read returns failure. -/
def gatherLoop (s : BufferState) : List ZipCodeRecord × BufferState :=
  match h : readRecord s with
  | (some r, s') =>
    let p := gatherLoop s'
    (r :: p.1, p.2)
  | (none, s') => ([], s')
termination_by s.content.length - s.pos
decreasing_by exact readRecord_measure h

/-- `ZipCodeBuffer::gatherAllRecords`: reset to just after the header,
loop single-record reads until failure, then reset again. -/
def gatherAllRecords (s : BufferState) : List ZipCodeRecord × BufferState :=
  let s1 := (reset s).2
  let p := gatherLoop s1
  (p.1, (reset p.2).2)

/-- The list of records the bulk-read loop yields from a list of
lines: blank lines are skipped, parsed records are collected, and the
loop terminates at the first non-blank line that fails to parse
(because the single-record read reports failure there). -/
def readAllFrom : List String → List ZipCodeRecord
  | [] => []
  | line :: rest =>
    if isBlankLine line then readAllFrom rest
    else
      match parseLine line with
      | some r => r :: readAllFrom rest
      | none => []

lemma readAllFrom_of_readFrom_some {ls : List String} {r : ZipCodeRecord}
    (h : (readFrom ls).1 = some r) :
    readAllFrom ls = r :: readAllFrom (ls.drop (readFrom ls).2) := by
  induction ls with
  | nil => simp [readFrom] at h
  | cons line rest ih =>
    by_cases hb : isBlankLine line = true
    · simp only [readFrom, if_pos hb] at h ⊢
      rw [readAllFrom, if_pos hb, ih h]
      simp [List.drop_succ_cons]
    · simp only [readFrom, if_neg hb] at h ⊢
      cases hp : parseLine line with
      | some r' =>
        rw [hp] at h
        simp only at h
        cases h
        rw [readAllFrom, if_neg hb, hp]
        simp [hp]
      | none => rw [hp] at h; simp at h

lemma readAllFrom_of_readFrom_none {ls : List String}
    (h : (readFrom ls).1 = none) : readAllFrom ls = [] := by
  induction ls with
  | nil => simp [readAllFrom]
  | cons line rest ih =>
    by_cases hb : isBlankLine line = true
    · simp only [readFrom, if_pos hb] at h
      rw [readAllFrom, if_pos hb, ih h]
    · simp only [readFrom, if_neg hb] at h
      cases hp : parseLine line with
      | some r' => rw [hp] at h; simp at h
      | none => rw [readAllFrom, if_neg hb, hp]

lemma gatherLoop_spec :
    ∀ (n : Nat) (s : BufferState), s.content.length - s.pos ≤ n →
      ((s.isOpen = true → (gatherLoop s).1 = readAllFrom (s.content.drop s.pos)) ∧
        (gatherLoop s).2.content = s.content ∧ (gatherLoop s).2.isOpen = s.isOpen ∧
        (gatherLoop s).2.filename = s.filename) := by
  intro n
  induction n with
  | zero =>
    intro s hn
    have hdrop : s.content.drop s.pos = [] := List.drop_eq_nil_of_le (by omega)
    have hr : readRecord s = (none, (readRecord s).2) := by
      by_cases ho : s.isOpen = true
      · rw [readRecord_open ho]
        simp [hdrop, readFrom]
      · rw [readRecord_closed (by revert ho; cases s.isOpen <;> simp)]
    rw [gatherLoop.eq_def, hr]
    obtain ⟨hc, hop, hf⟩ := readRecord_state s
    exact ⟨fun _ => by rw [hdrop, readAllFrom], hc, hop, hf⟩
  | succ n ih =>
    intro s hn
    cases hr : readRecord s with
    | mk ro s' =>
      cases ro with
      | some r =>
        have hdec := readRecord_measure hr
        obtain ⟨hc, hop, hf⟩ := readRecord_state s
        rw [hr] at hc hop hf
        obtain ⟨ih1, ih2, ih3, ih4⟩ := ih s' (by omega)
        rw [gatherLoop.eq_def, hr]
        refine ⟨fun ho => ?_, by simpa [ih2], by simpa [ih3], by simpa [ih4]⟩
        have hro := readRecord_open ho
        rw [hro] at hr
        obtain ⟨h1, h2⟩ := Prod.mk.injEq .. |>.mp hr
        have hs'pos : s'.pos = s.pos + (readFrom (s.content.drop s.pos)).2 := by
          rw [← h2]
        rw [readAllFrom_of_readFrom_some h1]
        simp only
        rw [ih1 (by rw [hop, ho]), hc, hs'pos, ← List.drop_drop]
      | none =>
        obtain ⟨hc, hop, hf⟩ := readRecord_state s
        rw [hr] at hc hop hf
        rw [gatherLoop.eq_def, hr]
        refine ⟨fun ho => ?_, hc, hop, hf⟩
        have hro := readRecord_open ho
        rw [hro] at hr
        obtain ⟨h1, _⟩ := Prod.mk.injEq .. |>.mp hr
        rw [readAllFrom_of_readFrom_none h1]

lemma reset_state (s : BufferState) :
    (reset s).2.content = s.content ∧ (reset s).2.isOpen = s.isOpen ∧
      (reset s).2.filename = s.filename := by
  unfold reset
  split
  · simp
  · split <;> simp

lemma reset_drop (s : BufferState) (h : s.isOpen = true) :
    (reset s).2.content.drop (reset s).2.pos = s.content.drop 1 := by
  simp only [reset, h]
  cases hc : s.content <;> simp

lemma gatherAllRecords_fst (s : BufferState) (h : s.isOpen = true) :
    (gatherAllRecords s).1 = readAllFrom (s.content.drop 1) := by
  obtain ⟨r1, r2, r3⟩ := reset_state s
  obtain ⟨g1, g2, g3, g4⟩ :=
    gatherLoop_spec ((reset s).2.content.length - (reset s).2.pos) (reset s).2 le_rfl
  unfold gatherAllRecords
  simp only
  rw [g1 (by rw [r2, h]), reset_drop s h]

lemma gatherAllRecords_state (s : BufferState) :
    (gatherAllRecords s).2.content = s.content ∧
      (gatherAllRecords s).2.isOpen = s.isOpen ∧
      (gatherAllRecords s).2.filename = s.filename := by
  obtain ⟨r1, r2, r3⟩ := reset_state s
  obtain ⟨g1, g2, g3, g4⟩ :=
    gatherLoop_spec ((reset s).2.content.length - (reset s).2.pos) (reset s).2 le_rfl
  obtain ⟨q1, q2, q3⟩ := reset_state (gatherLoop (reset s).2).2
  unfold gatherAllRecords
  simp only
  exact ⟨by rw [q1, g2, r1], by rw [q2, g3, r2], by rw [q3, g4, r3]⟩

lemma mem_readAllFrom {ls : List String} {r : ZipCodeRecord}
    (h : r ∈ readAllFrom ls) : ∃ l ∈ ls, parseLine l = some r := by
  induction ls with
  | nil => simp [readAllFrom] at h
  | cons line rest ih =>
    by_cases hb : isBlankLine line = true
    · rw [readAllFrom, if_pos hb] at h
      obtain ⟨l, hl, hp⟩ := ih h
      exact ⟨l, List.mem_cons_of_mem _ hl, hp⟩
    · rw [readAllFrom, if_neg hb] at h
      cases hp : parseLine line with
      | some r' =>
        rw [hp] at h
        rcases List.mem_cons.mp h with rfl | h
        · exact ⟨line, List.mem_cons_self _ _, hp⟩
        · obtain ⟨l, hl, hp'⟩ := ih h
          exact ⟨l, List.mem_cons_of_mem _ hl, hp'⟩
      | none => rw [hp] at h; simp at h

lemma readAllFrom_append_bad (bad : String) (post : List String)
    (hbadb : isBlankLine bad = false) (hbadp : parseLine bad = none) :
    ∀ pre : List String, (∀ l ∈ pre, isBlankLine l = false → (parseLine l).isSome) →
      readAllFrom (pre ++ bad :: post) =
        pre.filterMap (fun l => if isBlankLine l then none else parseLine l) := by
  intro pre
  induction pre with
  | nil =>
    intro _
    simp only [List.nil_append, List.filterMap_nil]
    rw [readAllFrom, if_neg (by simp [hbadb]), hbadp]
  | cons l pre ih =>
    intro hpre
    by_cases hb : isBlankLine l = true
    · rw [List.cons_append, readAllFrom, if_pos hb,
        ih (fun x hx => hpre x (List.mem_cons_of_mem _ hx)), List.filterMap_cons]
      simp [hb]
    · have hsome := hpre l (List.mem_cons_self _ _) (by simpa using hb)
      obtain ⟨r, hr⟩ := Option.isSome_iff_exists.mp hsome
      rw [List.cons_append, readAllFrom, if_neg (by simp [hb]), hr,
        ih (fun x hx => hpre x (List.mem_cons_of_mem _ hx)), List.filterMap_cons]
      simp [hb, hr]

/-- Concrete file for C1: a header, a parseable line, a malformed
line, and another parseable line after it. -/
def bufC1 : BufferState :=
  { isOpen := true,
    content := ["header", "1,a,A,b,2,3", "bad,line", "2,c,A,d,4,5"],
    pos := 1, filename := "zips.csv", headerSkipped := true, recordCount := 0 }

/-- C1 counterexample: in `bufC1` the last line is parseable and sits
after a malformed line, yet bulk read returns only the record of the
first line — the parseable line after the malformed one is dropped, so
the bulk-read result does not contain the records of all parseable
lines. -/
theorem gatherAllRecords_misses_line_after_bad :
    parseLine "2,c,A,d,4,5" = some ⟨2, "c", "A", "d", 4, 5⟩ ∧
    "2,c,A,d,4,5" ∈ bufC1.content ∧
    (gatherAllRecords bufC1).1 = [⟨1, "a", "A", "b", 2, 3⟩] := by
  refine ⟨by decide, by decide, ?_⟩
  rw [gatherAllRecords_fst bufC1 rfl]
  decide

/-- C1 amended: bulk read collects the successfully parsed records of
the (non-blank) lines preceding the first malformed line and stops
there; parseable lines after a malformed line contribute nothing,
because the single-record read signals a parse failure with the same
result as end-of-input and the loop stops. -/
theorem gatherAllRecords_stops_at_first_bad (s : BufferState)
    (pre : List String) (bad : String) (post : List String)
    (h : s.isOpen = true) (hsplit : s.content.drop 1 = pre ++ bad :: post)
    (hpre : ∀ l ∈ pre, isBlankLine l = false → (parseLine l).isSome)
    (hbadb : isBlankLine bad = false) (hbadp : parseLine bad = none) :
    (gatherAllRecords s).1 =
      pre.filterMap (fun l => if isBlankLine l then none else parseLine l) := by
  rw [gatherAllRecords_fst s h, hsplit]
  exact readAllFrom_append_bad bad post hbadb hbadp pre hpre

/-- Witness for the amended C1 at the concrete file `bufC1`. -/
theorem gatherAllRecords_stops_at_first_bad_witness :
    (gatherAllRecords bufC1).1 =
      ["1,a,A,b,2,3"].filterMap
        (fun l => if isBlankLine l then none else parseLine l) :=
  gatherAllRecords_stops_at_first_bad bufC1 ["1,a,A,b,2,3"] "bad,line"
    ["2,c,A,d,4,5"] rfl (by decide) (by decide) (by decide) (by decide)

/-- C9: for an open source, resetting after a bulk read and bulk
reading again yields the identical sequence of records. -/
theorem gather_reset_gather (s : BufferState) (h : s.isOpen = true) :
    (gatherAllRecords ((reset (gatherAllRecords s).2).2)).1 =
      (gatherAllRecords s).1 := by
  obtain ⟨g1, g2, g3⟩ := gatherAllRecords_state s
  obtain ⟨r1, r2, r3⟩ := reset_state (gatherAllRecords s).2
  rw [gatherAllRecords_fst _ (by rw [r2, g2, h]), gatherAllRecords_fst s h, r1, g1]

/-- Witness for C9 at a concrete two-line file. -/
theorem gather_reset_gather_witness :
    (gatherAllRecords ((reset (gatherAllRecords bufC1).2).2)).1 =
      (gatherAllRecords bufC1).1 :=
  gather_reset_gather bufC1 rfl

/-- C10: when the single-record read fails because the next line is
malformed (non-blank but unparseable), that line has already been
consumed from the stream — the state after the call has its cursor one
line further, so an immediately following read proceeds from the next
line of the file and the malformed line is never re-read. -/
theorem readRecord_consumes_bad_line (s : BufferState) (bad : String)
    (rest : List String) (h : s.isOpen = true)
    (hdrop : s.content.drop s.pos = bad :: rest)
    (hbadb : isBlankLine bad = false) (hbadp : parseLine bad = none) :
    readRecord s = (none, { s with pos := s.pos + 1 }) ∧
      s.content.drop (s.pos + 1) = rest := by
  have hrf : readFrom (bad :: rest) = (none, 1) := by
    rw [readFrom, if_neg (by simp [hbadb]), hbadp]
  constructor
  · rw [readRecord_open h, hdrop, hrf]
    simp
  · rw [← List.drop_drop, hdrop, List.drop_one, List.tail_cons]

/-- Witness for C10: in `bufC1` with the cursor on the malformed line,
the failing read consumes exactly that line. -/
theorem readRecord_consumes_bad_line_witness :
    readRecord { bufC1 with pos := 2 } =
      (none, { bufC1 with pos := 3 }) ∧
      bufC1.content.drop 3 = ["2,c,A,d,4,5"] :=
  readRecord_consumes_bad_line { bufC1 with pos := 2 } "bad,line"
    ["2,c,A,d,4,5"] rfl (by decide) (by decide) (by decide)

/-- Exhausted buffer for C6: the cursor is past the last line. -/
def bufEof : BufferState :=
  { isOpen := true, content := ["header"], pos := 1, filename := "zips.csv",
    headerSkipped := true, recordCount := 0 }

/-- Buffer for C6 whose next line is malformed. -/
def bufBad : BufferState :=
  { isOpen := true, content := ["header", ",,"], pos := 1, filename := "zips.csv",
    headerSkipped := true, recordCount := 0 }

/-- C6 counterexample: one buffer is exhausted, the other sits on a
malformed (non-blank) line, yet `readRecord` returns the very same
result in both cases — the caller cannot tell end-of-input apart from
a parse failure from the operation's result alone, because the C++
method reports both as the single boolean `false`. -/
theorem readRecord_eof_and_error_indistinguishable :
    bufEof.content.drop bufEof.pos = [] ∧
    bufBad.content.drop bufBad.pos = [",,"] ∧
    isBlankLine ",," = false ∧ parseLine ",," = none ∧
    (readRecord bufEof).1 = (readRecord bufBad).1 := by
  decide

/-- C6 amended: the single-record read has only two distinguishable
outcomes, a successfully parsed record or a failure signal; exhaustion
and a malformed line both yield the failure signal, while a parseable
next line yields its record. -/
theorem readRecord_outcomes (s : BufferState) (h : s.isOpen = true) :
    (s.content.drop s.pos = [] → (readRecord s).1 = none) ∧
    (∀ bad rest, s.content.drop s.pos = bad :: rest →
      isBlankLine bad = false → parseLine bad = none → (readRecord s).1 = none) ∧
    (∀ line rest r, s.content.drop s.pos = line :: rest →
      isBlankLine line = false → parseLine line = some r →
      (readRecord s).1 = some r) := by
  refine ⟨fun hd => ?_, fun bad rest hd hb hp => ?_, fun line rest r hd hb hp => ?_⟩
  · rw [readRecord_open h, hd]
    simp [readFrom]
  · rw [readRecord_open h, hd]
    simp only
    rw [readFrom, if_neg (by simp [hb]), hp]
  · rw [readRecord_open h, hd]
    simp only
    rw [readFrom, if_neg (by simp [hb]), hp]

/-- Witness for the amended C6 at concrete buffers: the failure signal
on exhaustion, the failure signal on a malformed line, and a success. -/
theorem readRecord_outcomes_witness :
    (readRecord bufEof).1 = none ∧ (readRecord bufBad).1 = none ∧
      (readRecord bufC1).1 = some ⟨1, "a", "A", "b", 2, 3⟩ :=
  ⟨(readRecord_outcomes bufEof rfl).1 (by decide),
    (readRecord_outcomes bufBad rfl).2.1 ",," [] (by decide) (by decide) (by decide),
    (readRecord_outcomes bufC1 rfl).2.2 "1,a,A,b,2,3" ["bad,line", "2,c,A,d,4,5"]
      ⟨1, "a", "A", "b", 2, 3⟩ (by decide) (by decide) (by decide)⟩

/-- Concrete file for the C5 witness. -/
def bufC5 : BufferState :=
  { isOpen := true, content := ["header", "7,p,ST,c,1,2"], pos := 1,
    filename := "zips.csv", headerSkipped := true, recordCount := 0 }

/-- C5: a line parses successfully exactly when splitting yields 6
fields, field 0 coerces to `int` and fields 4 and 5 coerce to
`double`; and every record in a bulk-read result is the parse of some
line of the source, so a malformed line (wrong field count or failed
coercion) never contributes a record to the bulk-read result. -/
theorem parseLine_validation_spec :
    (∀ line : String, (parseLine line).isSome ↔
      ((splitCSV line).length = 6 ∧
        (myStoi (trim ((splitCSV line).getD 0 ""))).isSome ∧
        (myStod (trim ((splitCSV line).getD 4 ""))).isSome ∧
        (myStod (trim ((splitCSV line).getD 5 ""))).isSome)) ∧
    (∀ (s : BufferState) (r : ZipCodeRecord), s.isOpen = true →
      r ∈ (gatherAllRecords s).1 → ∃ l ∈ s.content, parseLine l = some r) := by
  refine ⟨parseLine_isSome_iff, fun s r h hr => ?_⟩
  rw [gatherAllRecords_fst s h] at hr
  obtain ⟨l, hl, hp⟩ := mem_readAllFrom hr
  exact ⟨l, (List.drop_sublist 1 s.content).subset hl, hp⟩

/-- Witness for C5: the record bulk-read from `bufC5` is the parse of
one of its lines, and a 5-field line is rejected. -/
theorem parseLine_validation_spec_witness :
    (∃ l ∈ bufC5.content, parseLine l = some ⟨7, "p", "ST", "c", 1, 2⟩) ∧
      ¬ (parseLine "1,a,A,b,2.5").isSome :=
  ⟨parseLine_validation_spec.2 bufC5 ⟨7, "p", "ST", "c", 1, 2⟩ rfl
      (by rw [gatherAllRecords_fst bufC5 rfl]; decide),
    fun hs => by
      have := (parseLine_validation_spec.1 "1,a,A,b,2.5").mp hs
      revert this
      decide⟩

/-- C7 counterexample: an `open` call on a source that cannot be
opened returns failure and leaves no source open, yet `getFilename`
returns the requested path instead of the empty string — the C++
`open` stores the filename before attempting to open the stream and
does not clear it on that failure path. -/
theorem getFilename_nonempty_after_failed_open :
    (openBuffer initBuffer "data.csv" none).1 = false ∧
    (openBuffer initBuffer "data.csv" none).2.isOpen = false ∧
    getFilename (openBuffer initBuffer "data.csv" none).2 = "data.csv" := by
  decide

/-- C7 amended: `getFilename` returns the path of the currently open
source after a successful `open`, and the empty string after `close()`
and after an `open` that failed because the source was empty (no
header line); but after an `open` that failed because the source could
not be opened at all, it returns the path passed to `open`, not the
empty string. -/
theorem getFilename_spec :
    (∀ (s : BufferState) (path : String) (lines : List String),
      (openBuffer s path (some lines)).1 = true →
        getFilename (openBuffer s path (some lines)).2 = path ∧
        (openBuffer s path (some lines)).2.isOpen = true) ∧
    (∀ s : BufferState, getFilename (closeBuffer s) = "") ∧
    (∀ (s : BufferState) (path : String),
      getFilename (openBuffer s path (some [])).2 = "" ∧
      (openBuffer s path (some [])).2.isOpen = false) ∧
    (∀ (s : BufferState) (path : String),
      getFilename (openBuffer s path none).2 = path ∧
      (openBuffer s path none).2.isOpen = false) := by
  refine ⟨fun s path lines hok => ?_, fun s => rfl, fun s path => by
    simp [openBuffer, closeBuffer, getFilename], fun s path => by
    simp [openBuffer, closeBuffer, getFilename]⟩
  cases lines with
  | nil => simp [openBuffer, closeBuffer] at hok
  | cons hd tl => simp [openBuffer, getFilename]

/-- Witness for the amended C7: a successful open stores the path. -/
theorem getFilename_spec_witness :
    getFilename (openBuffer initBuffer "a.csv" (some ["h"])).2 = "a.csv" ∧
      (openBuffer initBuffer "a.csv" (some ["h"])).2.isOpen = true :=
  getFilename_spec.1 initBuffer "a.csv" ["h"] (by decide)

/-- `main` from `main.cpp`, as a function from the argument count and
the (possibly unopenable) input file to the process exit code.  The
print statements perform no control flow and are omitted; everything
that decides the exit code is kept. -/
def mainProgram (argc : Nat) (file : Option (List String)) : Nat :=
  if argc ≠ 2 then 1
  else
    let o := openBuffer initBuffer "input.csv" file
    if o.1 = false then 2
    else
      let p := gatherAllRecords o.2
      if p.1 = [] then 3
      else 0

/-- C8: the program exits 1 when the argument count is wrong, 2 when
the file cannot be opened, 3 when bulk read yields zero valid records
and 0 otherwise; in particular a file holding only a header line gives
exit code 3. -/
theorem mainProgram_exit_codes :
    (∀ (argc : Nat) (file : Option (List String)), argc ≠ 2 →
      mainProgram argc file = 1) ∧
    mainProgram 2 none = 2 ∧
    (∀ (hdr : String) (rest : List String),
      mainProgram 2 (some (hdr :: rest)) =
        if readAllFrom rest = [] then 3 else 0) ∧
    (∀ hdr : String, mainProgram 2 (some [hdr]) = 3) := by
  have hmain : ∀ (hdr : String) (rest : List String),
      mainProgram 2 (some (hdr :: rest)) =
        if readAllFrom rest = [] then 3 else 0 := by
    intro hdr rest
    have hopen : openBuffer initBuffer "input.csv" (some (hdr :: rest)) =
        (true, { isOpen := true, content := hdr :: rest, pos := 1,
                 filename := "input.csv", headerSkipped := true,
                 recordCount := 0 }) := by
      simp [openBuffer, closeBuffer, initBuffer]
    rw [mainProgram]
    simp only [if_neg (by omega : ¬ (2 : Nat) ≠ 2)]
    rw [hopen]
    simp only [Bool.true_eq_false, if_false]
    rw [gatherAllRecords_fst _ rfl]
    simp
  exact ⟨fun argc file h => by rw [mainProgram, if_pos h],
    by rw [mainProgram]; simp [openBuffer, closeBuffer, initBuffer],
    hmain,
    fun hdr => by rw [hmain hdr []]; simp [readAllFrom]⟩

/-- Witness for C8: each exit code at a concrete invocation. -/
theorem mainProgram_exit_codes_witness :
    mainProgram 3 none = 1 ∧ mainProgram 2 none = 2 ∧
      mainProgram 2 (some ["header"]) = 3 ∧
      mainProgram 2 (some ["header", "1,a,A,b,2,3"]) = 0 :=
  ⟨mainProgram_exit_codes.1 3 none (by omega),
    mainProgram_exit_codes.2.1,
    mainProgram_exit_codes.2.2.2 "header",
    by rw [mainProgram_exit_codes.2.2.1 "header" ["1,a,A,b,2,3"]]; decide⟩

/-- `StateExtremes` from `main.cpp`: the four extreme ZIP codes of a
state and the four running coordinate values. -/
structure StateExtremes where
  easternmost : Int
  westernmost : Int
  northernmost : Int
  southernmost : Int
  minLongitude : ℚ
  maxLongitude : ℚ
  maxLatitude : ℚ
  minLatitude : ℚ
deriving DecidableEq, Repr

/-- The `StateExtremes` default constructor: sentinel coordinates
(`DBL_MAX` for the min trackers, `lowest` for the max trackers) and
sentinel code 0. -/
def initExtremes : StateExtremes :=
  { easternmost := 0, westernmost := 0, northernmost := 0, southernmost := 0,
    minLongitude := dblMax, maxLongitude := -dblMax,
    maxLatitude := -dblMax, minLatitude := dblMax }

/-- `smallerZipWins` from `main.cpp`: on a coordinate tie the
candidate replaces the current ZIP when the current one is the unset
sentinel 0 or the candidate is numerically smaller. -/
def smallerZipWins (candidate current : Int) : Bool :=
  if current = 0 then true else candidate < current

/-- One `if / else if` chain of `calculateStateExtremes` for a "min"
tracker: strictly smaller coordinate replaces value and code; an exact
tie replaces the code when `smallerZipWins` says so. -/
def chooseMin (cur : ℚ × Int) (v : ℚ) (z : Int) : ℚ × Int :=
  if v < cur.1 then (v, z)
  else if v = cur.1 then (if smallerZipWins z cur.2 then (cur.1, z) else cur)
  else cur

/-- One `if / else if` chain of `calculateStateExtremes` for a "max"
tracker. -/
def chooseMax (cur : ℚ × Int) (v : ℚ) (z : Int) : ℚ × Int :=
  if v > cur.1 then (v, z)
  else if v = cur.1 then (if smallerZipWins z cur.2 then (cur.1, z) else cur)
  else cur

/-- The body of the record loop of `calculateStateExtremes`: the four
independent extreme updates applied to one accumulator (they read and
write disjoint fields, so they are recorded side by side). -/
def updateExtremes (e : StateExtremes) (r : ZipCodeRecord) : StateExtremes :=
  let pe := chooseMin (e.minLongitude, e.easternmost) r.longitude r.zipCode
  let pw := chooseMax (e.maxLongitude, e.westernmost) r.longitude r.zipCode
  let pn := chooseMax (e.maxLatitude, e.northernmost) r.latitude r.zipCode
  let ps := chooseMin (e.minLatitude, e.southernmost) r.latitude r.zipCode
  { easternmost := pe.2, westernmost := pw.2, northernmost := pn.2,
    southernmost := ps.2, minLongitude := pe.1, maxLongitude := pw.1,
    maxLatitude := pn.1, minLatitude := ps.1 }

/-- One iteration of the record loop on the whole map
(`stateMap[state]` creates a default entry if absent, then the four
updates run); the map is modelled as a function to `Option`. -/
def aggStep (m : String → Option StateExtremes) (r : ZipCodeRecord) :
    String → Option StateExtremes :=
  fun st =>
    if st = r.state then some (updateExtremes ((m r.state).getD initExtremes) r)
    else m st

/-- `calculateStateExtremes` from `main.cpp`: fold every record into
the per-state map. -/
def calculateStateExtremes (records : List ZipCodeRecord) :
    String → Option StateExtremes :=
  records.foldl aggStep (fun _ => none)

lemma chooseMin_tie (cur : ℚ × Int) (v : ℚ) (z : Int) (h : v = cur.1) :
    chooseMin cur v z = (cur.1, if cur.2 = 0 then z else min z cur.2) := by
  by_cases h0 : cur.2 = 0
  · simp [chooseMin, smallerZipWins, h, h0]
  · by_cases hlt : z < cur.2
    · simp [chooseMin, smallerZipWins, h, h0, hlt, min_eq_left (le_of_lt hlt)]
    · simp [chooseMin, smallerZipWins, h, h0, hlt,
        min_eq_right (by omega : cur.2 ≤ z)]

lemma chooseMax_tie (cur : ℚ × Int) (v : ℚ) (z : Int) (h : v = cur.1) :
    chooseMax cur v z = (cur.1, if cur.2 = 0 then z else min z cur.2) := by
  by_cases h0 : cur.2 = 0
  · simp [chooseMax, smallerZipWins, h, h0]
  · by_cases hlt : z < cur.2
    · simp [chooseMax, smallerZipWins, h, h0, hlt, min_eq_left (le_of_lt hlt)]
    · simp [chooseMax, smallerZipWins, h, h0, hlt,
        min_eq_right (by omega : cur.2 ≤ z)]

/-- Same-region records with equal longitude and codes 10023/10005,
for the tie-break scenario of C3. -/
def rNY23 : ZipCodeRecord := ⟨10023, "", "NY", "", 40, -74⟩

/-- See `rNY23`. -/
def rNY05 : ZipCodeRecord := ⟨10005, "", "NY", "", 40, -74⟩

/-- C3: when a record's relevant coordinate exactly equals the stored
extreme value, each of the four trackers keeps its coordinate and the
stored code becomes the candidate when the stored code is the unset
sentinel 0, else the smaller of the two codes; and with equal
longitudes and codes 10023/10005 in the same region, the easternmost
and westernmost slots end at 10005 in either input order. -/
theorem tie_break_spec :
    (∀ (e : StateExtremes) (r : ZipCodeRecord), r.longitude = e.minLongitude →
      (updateExtremes e r).easternmost =
          (if e.easternmost = 0 then r.zipCode else min r.zipCode e.easternmost) ∧
        (updateExtremes e r).minLongitude = e.minLongitude) ∧
    (∀ (e : StateExtremes) (r : ZipCodeRecord), r.longitude = e.maxLongitude →
      (updateExtremes e r).westernmost =
          (if e.westernmost = 0 then r.zipCode else min r.zipCode e.westernmost) ∧
        (updateExtremes e r).maxLongitude = e.maxLongitude) ∧
    (∀ (e : StateExtremes) (r : ZipCodeRecord), r.latitude = e.maxLatitude →
      (updateExtremes e r).northernmost =
          (if e.northernmost = 0 then r.zipCode else min r.zipCode e.northernmost) ∧
        (updateExtremes e r).maxLatitude = e.maxLatitude) ∧
    (∀ (e : StateExtremes) (r : ZipCodeRecord), r.latitude = e.minLatitude →
      (updateExtremes e r).southernmost =
          (if e.southernmost = 0 then r.zipCode else min r.zipCode e.southernmost) ∧
        (updateExtremes e r).minLatitude = e.minLatitude) ∧
    ((calculateStateExtremes [rNY23, rNY05] "NY").getD initExtremes).easternmost
        = 10005 ∧
    ((calculateStateExtremes [rNY23, rNY05] "NY").getD initExtremes).westernmost
        = 10005 ∧
    ((calculateStateExtremes [rNY05, rNY23] "NY").getD initExtremes).easternmost
        = 10005 ∧
    ((calculateStateExtremes [rNY05, rNY23] "NY").getD initExtremes).westernmost
        = 10005 := by
  refine ⟨fun e r h => ⟨?_, ?_⟩, fun e r h => ⟨?_, ?_⟩, fun e r h => ⟨?_, ?_⟩,
    fun e r h => ⟨?_, ?_⟩, by decide, by decide, by decide, by decide⟩
  · rw [show (updateExtremes e r).easternmost =
        (chooseMin (e.minLongitude, e.easternmost) r.longitude r.zipCode).2 from rfl,
      chooseMin_tie _ _ _ h]
  · rw [show (updateExtremes e r).minLongitude =
        (chooseMin (e.minLongitude, e.easternmost) r.longitude r.zipCode).1 from rfl,
      chooseMin_tie _ _ _ h]
  · rw [show (updateExtremes e r).westernmost =
        (chooseMax (e.maxLongitude, e.westernmost) r.longitude r.zipCode).2 from rfl,
      chooseMax_tie _ _ _ h]
  · rw [show (updateExtremes e r).maxLongitude =
        (chooseMax (e.maxLongitude, e.westernmost) r.longitude r.zipCode).1 from rfl,
      chooseMax_tie _ _ _ h]
  · rw [show (updateExtremes e r).northernmost =
        (chooseMax (e.maxLatitude, e.northernmost) r.latitude r.zipCode).2 from rfl,
      chooseMax_tie _ _ _ h]
  · rw [show (updateExtremes e r).maxLatitude =
        (chooseMax (e.maxLatitude, e.northernmost) r.latitude r.zipCode).1 from rfl,
      chooseMax_tie _ _ _ h]
  · rw [show (updateExtremes e r).southernmost =
        (chooseMin (e.minLatitude, e.southernmost) r.latitude r.zipCode).2 from rfl,
      chooseMin_tie _ _ _ h]
  · rw [show (updateExtremes e r).minLatitude =
        (chooseMin (e.minLatitude, e.southernmost) r.latitude r.zipCode).1 from rfl,
      chooseMin_tie _ _ _ h]

/-- Accumulator with a stored longitude extreme equal to the candidate
record's longitude, for the C3 witness. -/
def eTie : StateExtremes :=
  { initExtremes with minLongitude := -74, easternmost := 10023 }

/-- Witness for C3: the tie rule applied at a concrete accumulator. -/
theorem tie_break_spec_witness :
    (updateExtremes eTie rNY05).easternmost = min 10005 10023 := by
  rw [(tie_break_spec.1 eTie rNY05 (by decide)).1]
  decide

/-- A record whose code is the unset sentinel 0 (parseable from a line
whose first field is `0`). -/
def rZero : ZipCodeRecord := ⟨0, "", "A", "", 0, 5⟩

/-- A record in the same region as `rZero` with the same coordinates
but code 7. -/
def rSeven : ZipCodeRecord := ⟨7, "", "A", "", 0, 5⟩

/-- C2 counterexample: the two orders of the same two records give
different mappings, because a stored code 0 coming from a real record
is mistaken for the unset sentinel and always loses the tie-break. -/
theorem calculateStateExtremes_not_perm_invariant :
    List.Perm [rZero, rSeven] [rSeven, rZero] ∧
      calculateStateExtremes [rZero, rSeven] ≠
        calculateStateExtremes [rSeven, rZero] := by
  refine ⟨List.Perm.swap rSeven rZero [], fun h => ?_⟩
  have := congrFun h "A"
  revert this
  decide

lemma chooseMin_eq_lex (cv : ℚ) (cz : Int) (v : ℚ) (z : Int) :
    chooseMin (cv, cz) v z =
      if v < cv ∨ (v = cv ∧ (cz = 0 ∨ z < cz)) then (v, z) else (cv, cz) := by
  by_cases h1 : v < cv
  · simp [chooseMin, h1]
  · by_cases h2 : v = cv
    · by_cases h3 : cz = 0
      · simp [chooseMin, smallerZipWins, h1, h2, h3]
      · by_cases h4 : z < cz
        · simp [chooseMin, smallerZipWins, h1, h2, h3, h4]
        · simp [chooseMin, smallerZipWins, h1, h2, h3, h4]
    · simp [chooseMin, h1, h2]

lemma chooseMin_comm (cv : ℚ) (cz : Int) (v1 v2 : ℚ) (z1 z2 : Int)
    (hz1 : z1 ≠ 0) (hz2 : z2 ≠ 0) :
    chooseMin (chooseMin (cv, cz) v1 z1) v2 z2 =
      chooseMin (chooseMin (cv, cz) v2 z2) v1 z1 := by
  rw [chooseMin_eq_lex cv cz v1 z1, chooseMin_eq_lex cv cz v2 z2]
  by_cases b1 : v1 < cv ∨ (v1 = cv ∧ (cz = 0 ∨ z1 < cz))
  · by_cases b2 : v2 < cv ∨ (v2 = cv ∧ (cz = 0 ∨ z2 < cz))
    · rw [if_pos b1, if_pos b2, chooseMin_eq_lex v1 z1 v2 z2,
        chooseMin_eq_lex v2 z2 v1 z1]
      rcases lt_trichotomy v1 v2 with hv | hv | hv
      · have hL : ¬(v2 < v1 ∨ (v2 = v1 ∧ (z1 = 0 ∨ z2 < z1))) := by
          rintro (h | ⟨h, _⟩) <;> linarith
        rw [if_neg hL, if_pos (Or.inl hv)]
      · subst hv
        rcases lt_trichotomy z1 z2 with hz | hz | hz
        · have hL : ¬(v1 < v1 ∨ (v1 = v1 ∧ (z1 = 0 ∨ z2 < z1))) := by
            rintro (h | ⟨_, h | h⟩)
            · exact lt_irrefl _ h
            · exact hz1 h
            · omega
          have hR : v1 < v1 ∨ (v1 = v1 ∧ (z2 = 0 ∨ z1 < z2)) :=
            Or.inr ⟨rfl, Or.inr hz⟩
          rw [if_neg hL, if_pos hR]
        · subst hz
          have hL : ¬(v1 < v1 ∨ (v1 = v1 ∧ (z1 = 0 ∨ z1 < z1))) := by
            rintro (h | ⟨_, h | h⟩)
            · exact lt_irrefl _ h
            · exact hz1 h
            · omega
          rw [if_neg hL]
        · have hL : v1 < v1 ∨ (v1 = v1 ∧ (z1 = 0 ∨ z2 < z1)) :=
            Or.inr ⟨rfl, Or.inr hz⟩
          have hR : ¬(v1 < v1 ∨ (v1 = v1 ∧ (z2 = 0 ∨ z1 < z2))) := by
            rintro (h | ⟨_, h | h⟩)
            · exact lt_irrefl _ h
            · exact hz2 h
            · omega
          rw [if_pos hL, if_neg hR]
      · have hR : ¬(v1 < v2 ∨ (v1 = v2 ∧ (z2 = 0 ∨ z1 < z2))) := by
          rintro (h | ⟨h, _⟩) <;> linarith
        rw [if_pos (Or.inl hv : v2 < v1 ∨ (v2 = v1 ∧ (z1 = 0 ∨ z2 < z1))),
          if_neg hR]
    · rw [if_pos b1, if_neg b2, chooseMin_eq_lex v1 z1 v2 z2,
        chooseMin_eq_lex cv cz v1 z1]
      have hCL : ¬(v2 < v1 ∨ (v2 = v1 ∧ (z1 = 0 ∨ z2 < z1))) := by
        rintro (h | ⟨he, h0 | hlt⟩)
        · apply b2
          rcases b1 with h1 | ⟨h1e, _⟩
          · exact Or.inl (by linarith)
          · exact Or.inl (by linarith [h1e])
        · exact hz1 h0
        · apply b2
          rcases b1 with h1 | ⟨h1e, h1r⟩
          · exact Or.inl (by linarith)
          · refine Or.inr ⟨by linarith, ?_⟩
            rcases h1r with h1r | h1r
            · exact Or.inl h1r
            · exact Or.inr (by omega)
      rw [if_neg hCL, if_pos b1]
  · by_cases b2 : v2 < cv ∨ (v2 = cv ∧ (cz = 0 ∨ z2 < cz))
    · rw [if_neg b1, if_pos b2, chooseMin_eq_lex cv cz v2 z2,
        chooseMin_eq_lex v2 z2 v1 z1]
      have hCR : ¬(v1 < v2 ∨ (v1 = v2 ∧ (z2 = 0 ∨ z1 < z2))) := by
        rintro (h | ⟨he, h0 | hlt⟩)
        · apply b1
          rcases b2 with h2' | ⟨h2e, _⟩
          · exact Or.inl (by linarith)
          · exact Or.inl (by linarith [h2e])
        · exact hz2 h0
        · apply b1
          rcases b2 with h2' | ⟨h2e, h2r⟩
          · exact Or.inl (by linarith)
          · refine Or.inr ⟨by linarith, ?_⟩
            rcases h2r with h2r | h2r
            · exact Or.inl h2r
            · exact Or.inr (by omega)
      rw [if_pos b2, if_neg hCR]
    · rw [if_neg b1, if_neg b2, chooseMin_eq_lex cv cz v2 z2,
        chooseMin_eq_lex cv cz v1 z1, if_neg b2, if_neg b1]

lemma chooseMax_eq_neg_chooseMin (cv : ℚ) (cz : Int) (v : ℚ) (z : Int) :
    chooseMax (cv, cz) v z =
      (-(chooseMin (-cv, cz) (-v) z).1, (chooseMin (-cv, cz) (-v) z).2) := by
  rcases lt_trichotomy cv v with h | h | h
  · have h' : (-v : ℚ) < -cv := by linarith
    simp [chooseMax, chooseMin, h, h']
  · subst h
    by_cases hw : smallerZipWins z cz = true
    · simp [chooseMax, chooseMin, lt_irrefl, hw]
    · simp [chooseMax, chooseMin, lt_irrefl, hw]
  · have h1 : ¬ ((cv : ℚ) < v) := by linarith
    have h1' : v ≠ cv := by intro he; rw [he] at h; exact lt_irrefl _ h
    have h2 : ¬ ((-v : ℚ) < -cv) := by intro hc; rw [neg_lt_neg_iff] at hc; linarith
    have h2' : (-v : ℚ) ≠ -cv := fun he => h1' (neg_inj.mp he)
    simp [chooseMax, chooseMin, h1, h1', h2, h2']

lemma chooseMax_comm (cv : ℚ) (cz : Int) (v1 v2 : ℚ) (z1 z2 : Int)
    (hz1 : z1 ≠ 0) (hz2 : z2 ≠ 0) :
    chooseMax (chooseMax (cv, cz) v1 z1) v2 z2 =
      chooseMax (chooseMax (cv, cz) v2 z2) v1 z1 := by
  have hfold : ∀ (v : ℚ) (z : Int),
      (-(chooseMax (cv, cz) v z).1, (chooseMax (cv, cz) v z).2) =
        chooseMin (-cv, cz) (-v) z := by
    intro v z
    rw [chooseMax_eq_neg_chooseMin]
    simp
  have eouter : ∀ (v v' : ℚ) (z z' : Int),
      chooseMax (chooseMax (cv, cz) v z) v' z' =
        (-(chooseMin (chooseMin (-cv, cz) (-v) z) (-v') z').1,
          (chooseMin (chooseMin (-cv, cz) (-v) z) (-v') z').2) := by
    intro v v' z z'
    have e1 := chooseMax_eq_neg_chooseMin ((chooseMax (cv, cz) v z).1)
      ((chooseMax (cv, cz) v z).2) v' z'
    rw [Prod.mk.eta] at e1
    rw [e1, hfold v z]
  rw [eouter v1 v2 z1 z2, eouter v2 v1 z2 z1,
    chooseMin_comm (-cv) cz (-v1) (-v2) z1 z2 hz1 hz2]

lemma updateExtremes_comm (e : StateExtremes) (r1 r2 : ZipCodeRecord)
    (h1 : r1.zipCode ≠ 0) (h2 : r2.zipCode ≠ 0) :
    updateExtremes (updateExtremes e r1) r2 =
      updateExtremes (updateExtremes e r2) r1 := by
  simp only [updateExtremes, Prod.mk.eta, StateExtremes.mk.injEq]
  exact ⟨congrArg Prod.snd
      (chooseMin_comm e.minLongitude e.easternmost r1.longitude r2.longitude
        r1.zipCode r2.zipCode h1 h2),
    congrArg Prod.snd
      (chooseMax_comm e.maxLongitude e.westernmost r1.longitude r2.longitude
        r1.zipCode r2.zipCode h1 h2),
    congrArg Prod.snd
      (chooseMax_comm e.maxLatitude e.northernmost r1.latitude r2.latitude
        r1.zipCode r2.zipCode h1 h2),
    congrArg Prod.snd
      (chooseMin_comm e.minLatitude e.southernmost r1.latitude r2.latitude
        r1.zipCode r2.zipCode h1 h2),
    congrArg Prod.fst
      (chooseMin_comm e.minLongitude e.easternmost r1.longitude r2.longitude
        r1.zipCode r2.zipCode h1 h2),
    congrArg Prod.fst
      (chooseMax_comm e.maxLongitude e.westernmost r1.longitude r2.longitude
        r1.zipCode r2.zipCode h1 h2),
    congrArg Prod.fst
      (chooseMax_comm e.maxLatitude e.northernmost r1.latitude r2.latitude
        r1.zipCode r2.zipCode h1 h2),
    congrArg Prod.fst
      (chooseMin_comm e.minLatitude e.southernmost r1.latitude r2.latitude
        r1.zipCode r2.zipCode h1 h2)⟩

lemma aggStep_comm (m : String → Option StateExtremes) (r1 r2 : ZipCodeRecord)
    (h1 : r1.zipCode ≠ 0) (h2 : r2.zipCode ≠ 0) :
    aggStep (aggStep m r1) r2 = aggStep (aggStep m r2) r1 := by
  funext st
  simp only [aggStep]
  by_cases ha : st = r1.state
  · by_cases hb : st = r2.state
    · have he : r2.state = r1.state := hb.symm.trans ha
      simp [hb, he, updateExtremes_comm ((m r1.state).getD initExtremes) r1 r2 h1 h2]
    · have hne : ¬ r1.state = r2.state := fun hc => hb (ha.trans hc)
      simp [ha, hne]
  · by_cases hb : st = r2.state
    · have hne : ¬ r2.state = r1.state := fun hc => ha (hb.trans hc)
      simp [hb, hne]
    · simp [ha, hb]

lemma foldl_aggStep_perm {l1 l2 : List ZipCodeRecord} (hp : l1.Perm l2) :
    (∀ r ∈ l1, r.zipCode ≠ 0) →
      ∀ m, l1.foldl aggStep m = l2.foldl aggStep m := by
  induction hp with
  | nil => intro _ m; rfl
  | cons x p ih =>
    intro hz m
    simp only [List.foldl_cons]
    exact ih (fun r hr => hz r (List.mem_cons_of_mem _ hr)) _
  | swap x y l =>
    intro hz m
    simp only [List.foldl_cons]
    rw [aggStep_comm m y x (hz y (List.mem_cons_self _ _))
      (hz x (List.mem_cons_of_mem _ (List.mem_cons_self _ _)))]
  | trans h12 h23 ih1 ih2 =>
    intro hz m
    rw [ih1 hz m, ih2 (fun r hr => hz r (h12.mem_iff.mpr hr)) m]

/-- C2 amended: for record lists in which no record carries the unset
sentinel code 0, `calculateStateExtremes` is order-independent — any
permutation of the input yields an identical mapping.  (With a record
whose code is 0 the tie-break mistakes it for an unset slot, see the
counterexample.) -/
theorem calculateStateExtremes_perm_invariant (l1 l2 : List ZipCodeRecord)
    (hp : l1.Perm l2) (hz : ∀ r ∈ l1, r.zipCode ≠ 0) :
    calculateStateExtremes l1 = calculateStateExtremes l2 :=
  foldl_aggStep_perm hp hz _

/-- Witness for the amended C2 at a concrete two-record list. -/
theorem calculateStateExtremes_perm_invariant_witness :
    calculateStateExtremes [rNY23, rNY05] = calculateStateExtremes [rNY05, rNY23] :=
  calculateStateExtremes_perm_invariant _ _ (List.Perm.swap rNY05 rNY23 [])
    (by decide)

end ZipCsv
